import Mathlib

/-!
Verification of the ActEd marking-deadlines calendar tools.

This file gives a shallow embedding of the row-processing, database,
HTTP-endpoint and CLI logic of `calendar_server.py` and
`deadlines_to_ics.py`, and proves the behavioural properties stated in
the repository specification.

Python string operations are modelled directly on the character data of
a `String` (ASCII-faithful; the repository's inputs are ASCII).
-/

namespace ActEd

/-- Characters removed by Python `str.strip()` (the ASCII whitespace set). -/
def pySpaceChar (c : Char) : Bool :=
  c = ' ' || c = '\t' || c = '\n' || c = '\r' || c = '\x0b' || c = '\x0c'

/-- Python `str.strip()`: drop leading and trailing whitespace. -/
def pyStrip (s : String) : String :=
  String.mk (((s.data.dropWhile pySpaceChar).reverse.dropWhile pySpaceChar).reverse)

/-- Python `str.upper()` (ASCII letters). -/
def pyUpper (s : String) : String :=
  String.mk (s.data.map Char.toUpper)

/-- Python `str.startswith(pre)`. -/
def pyStartsWith (s pre : String) : Bool :=
  pre.data.isPrefixOf s.data

/-- Python `int(s)` restricted to a nonempty all-digit string, as used by
`strptime` field conversion; `none` when the string is not all digits. -/
def pyToNat (s : String) : Option Nat :=
  if s.data ≠ [] ∧ s.data.all Char.isDigit then
    some (s.data.foldl (fun a c => a * 10 + (c.toNat - 48)) 0)
  else none

/-- Python `str.split(c)` on character lists: always returns at least one
piece; each separator occurrence starts a new piece. -/
def splitChar (c : Char) : List Char → List (List Char)
  | [] => [[]]
  | x :: xs =>
    match splitChar c xs with
    | [] => [[]]
    | ys :: rest => if x = c then [] :: ys :: rest else (x :: ys) :: rest

/-- Python `str.split(c)` on strings. -/
def pySplit (s : String) (c : Char) : List String :=
  (splitChar c s.data).map String.mk

/-- Worker for `pyReplace`: replace non-overlapping occurrences of `pat`
left to right, scanning fuel bounded by the list length (`pat` nonempty at
every use site, matching Python `str.replace` there). -/
def replaceAux (pat repl : List Char) : Nat → List Char → List Char
  | _, [] => []
  | 0, l => l
  | fuel + 1, x :: xs =>
    if pat.isPrefixOf (x :: xs) then
      repl ++ replaceAux pat repl fuel (List.drop pat.length (x :: xs))
    else
      x :: replaceAux pat repl fuel xs

/-- Python `str.replace(pat, repl)` for nonempty `pat`. -/
def pyReplace (s pat repl : String) : String :=
  String.mk (replaceAux pat.data repl.data s.data.length s.data)

/-! ## Dates

`datetime.strptime(_, "%d/%m/%Y")` accepts a day field of one or two
digits with value 1..31, a month field of one or two digits with value
1..12, a year field of exactly four digits, literal separators consuming
the whole string, and then validates the calendar date (Python's
`datetime` also requires year ≥ 1). -/

structure Date where
  day : Nat
  month : Nat
  year : Nat
deriving DecidableEq, Repr

def isLeapYear (y : Nat) : Bool :=
  y % 4 == 0 && (y % 100 != 0 || y % 400 == 0)

def daysInMonth (m y : Nat) : Nat :=
  if m = 2 then (if isLeapYear y then 29 else 28)
  else if m = 4 ∨ m = 6 ∨ m = 9 ∨ m = 11 then 30
  else 31

/-- Field `%d` of `strptime`: one or two digits, value 1..31. -/
def parseDayField (s : String) : Option Nat :=
  match pyToNat s with
  | some v => if s.data.length ≤ 2 ∧ 1 ≤ v ∧ v ≤ 31 then some v else none
  | none => none

/-- Field `%m` of `strptime`: one or two digits, value 1..12. -/
def parseMonthField (s : String) : Option Nat :=
  match pyToNat s with
  | some v => if s.data.length ≤ 2 ∧ 1 ≤ v ∧ v ≤ 12 then some v else none
  | none => none

/-- Field `%Y` of `strptime`: exactly four digits; `datetime` requires year ≥ 1. -/
def parseYearField (s : String) : Option Nat :=
  match pyToNat s with
  | some v => if s.data.length = 4 ∧ 1 ≤ v then some v else none
  | none => none

/-- Model of `datetime.strptime(s, "%d/%m/%Y").date()`: `none` models the
`ValueError` raised on any malformed or invalid calendar date. -/
def parseDateDMY (s : String) : Option Date :=
  match pySplit s '/' with
  | [ds, ms, ys] =>
    match parseDayField ds, parseMonthField ms, parseYearField ys with
    | some d, some m, some y =>
      if d ≤ daysInMonth m y then some ⟨d, m, y⟩ else none
    | _, _, _ => none
  | _ => none

def digitChar (n : Nat) : Char := Char.ofNat (48 + n)

/-- Two-digit zero-padded decimal, as in `date.isoformat` month/day. -/
def pad2 (n : Nat) : String :=
  String.mk [digitChar (n / 10 % 10), digitChar (n % 10)]

/-- Four-digit zero-padded decimal, as in `date.isoformat` year. -/
def pad4 (n : Nat) : String :=
  String.mk [digitChar (n / 1000 % 10), digitChar (n / 100 % 10),
             digitChar (n / 10 % 10), digitChar (n % 10)]

/-- Python `date.isoformat()`: "YYYY-MM-DD". -/
def Date.toISO (d : Date) : String :=
  pad4 d.year ++ "-" ++ pad2 d.month ++ "-" ++ pad2 d.day

/-- Model of `datetime.strptime(s, "%Y-%m-%d").date()` as used by
`generate_calendar` when reading stored deadline text back. -/
def parseISODate (s : String) : Option Date :=
  match pySplit s '-' with
  | [ys, ms, ds] =>
    match parseYearField ys, parseMonthField ms, parseDayField ds with
    | some y, some m, some d =>
      if d ≤ daysInMonth m y then some ⟨d, m, y⟩ else none
    | _, _, _ => none
  | _ => none

/-! ## Module-group classification

Both `DeadlineDatabase.import_from_tsv` and `generate_static_files` walk
the same ten group keys in dict insertion order and take the first whose
key is a prefix of the trimmed, upper-cased module code. -/

def moduleGroups : List String :=
  ["CM1", "CM2", "CS1", "CS2", "CB", "CP1", "CP2", "CP3", "SP", "SA"]

/-- The classification loop `for group_key in module_groups: if
module.strip().upper().startswith(group_key): ... break`. -/
def findModuleGroup (module : String) : Option String :=
  moduleGroups.find? (fun g => pyStartsWith (pyUpper (pyStrip module)) g)

/-! ## Database rows and ingestion

A stored row of the `deadlines` table. `academic_year` keeps its column
default `'2026'` and `is_active` its default `1`; `id` and the timestamp
columns play no behavioural role and are omitted. -/

structure DbRow where
  module_code : String
  module_group : String
  assignment_code : String
  title : String
  recommend_date : Option String
  deadline_date : String
  academic_year : String
  is_active : Bool
deriving DecidableEq, Repr

/-- Processing of one TSV row inside `DeadlineDatabase.import_from_tsv`:
skip rows with fewer than four fields, classify the module code, parse the
deadline date and (when nonempty after strip) the recommended date in one
`try`, and build the inserted row. `none` means the row is discarded. -/
def importRow (row : List String) : Option DbRow :=
  match row with
  | module :: code :: recStr :: dlStr :: _ =>
    match findModuleGroup module with
    | none => none
    | some g =>
      match parseDateDMY (pyStrip dlStr) with
      | none => none
      | some d =>
        if pyStrip recStr = "" then
          some ⟨pyStrip module, g, pyStrip code,
                pyStrip module ++ " " ++ pyStrip code,
                none, d.toISO, "2026", true⟩
        else
          match parseDateDMY (pyStrip recStr) with
          | none => none
          | some rd =>
            some ⟨pyStrip module, g, pyStrip code,
                  pyStrip module ++ " " ++ pyStrip code,
                  some rd.toISO, d.toISO, "2026", true⟩
  | _ => none

/-- The `UNIQUE(module_code, assignment_code, academic_year)` key. -/
def sameKey (a b : DbRow) : Bool :=
  a.module_code == b.module_code && a.assignment_code == b.assignment_code
    && a.academic_year == b.academic_year

/-- SQLite `INSERT OR REPLACE`: delete any row with the same unique key,
then insert the new row (fresh autoincrement id, so it sits last). -/
def insertOrReplace (db : List DbRow) (r : DbRow) : List DbRow :=
  db.filter (fun x => !(sameKey x r)) ++ [r]

/-- One `cursor.execute` iteration of the import loop. -/
def importStep (db : List DbRow) (row : List String) : List DbRow :=
  match importRow row with
  | some r => insertOrReplace db r
  | none => db

/-- The `DELETE FROM deadlines` statement at the start of `import_from_tsv`. -/
def clearAll (_db : List DbRow) : List DbRow := []

/-- Model of `DeadlineDatabase.import_from_tsv`: clear all existing rows, then
insert-or-replace each parsed TSV row in order. -/
def importFromTsv (db : List DbRow) (rows : List (List String)) : List DbRow :=
  rows.foldl importStep (clearAll db)

/-! ## Queries

`get_deadlines_by_group` orders by SQLite binary text comparison; we model
`ORDER BY` with a stable insertion sort over a byte-wise comparison. -/

/-- Lexicographic order on character data (SQLite text comparison for
the ASCII data stored here). -/
def lexLt : List Char → List Char → Bool
  | [], [] => false
  | [], _ :: _ => true
  | _ :: _, [] => false
  | a :: as, b :: bs =>
    if a.toNat < b.toNat then true
    else if b.toNat < a.toNat then false
    else lexLt as bs

def strLtB (a b : String) : Bool := lexLt a.data b.data

def strLeB (a b : String) : Bool := strLtB a b || a == b

/-- Comparison for `ORDER BY deadline_date, module_code`. -/
def rowLe (a b : DbRow) : Bool :=
  strLtB a.deadline_date b.deadline_date ||
    (a.deadline_date == b.deadline_date && strLeB a.module_code b.module_code)

/-- Comparison for `ORDER BY module_group, deadline_date, module_code`. -/
def rowLeAll (a b : DbRow) : Bool :=
  strLtB a.module_group b.module_group ||
    (a.module_group == b.module_group && rowLe a b)

def insertSorted (le : α → α → Bool) (a : α) : List α → List α
  | [] => [a]
  | b :: bs => if le a b then a :: b :: bs else b :: insertSorted le a bs

/-- Stable insertion sort modelling `ORDER BY`. -/
def sortByBool (le : α → α → Bool) : List α → List α
  | [] => []
  | a :: as => insertSorted le a (sortByBool le as)

/-- Model of `DeadlineDatabase.get_deadlines_by_group`: `if module_group:` is
Python truthiness, so both `None` and the empty string select the
unfiltered query; otherwise filter on the upper-cased group. Only rows
with `is_active = 1` are returned. -/
def getDeadlinesByGroup (db : List DbRow) (mg : Option String) : List DbRow :=
  match mg with
  | some grp =>
    if grp = "" then sortByBool rowLeAll (db.filter (fun r => r.is_active))
    else sortByBool rowLe
      (db.filter (fun r => r.module_group == pyUpper grp && r.is_active))
  | none => sortByBool rowLeAll (db.filter (fun r => r.is_active))

/-! ## The `/api/deadlines` endpoint -/

/-- A JSON value as produced by `json.dumps` for the fields used here. -/
inductive JVal where
  | str (s : String)
  | null
deriving DecidableEq, Repr

/-- One entry of the `deadlines` JSON array: a Python dict literal always
carries all five keys; a `None` recommend date becomes JSON `null`. -/
def formatEntry (r : DbRow) : List (String × JVal) :=
  [("module_code", JVal.str r.module_code),
   ("assignment_code", JVal.str r.assignment_code),
   ("title", JVal.str r.title),
   ("deadline_date", JVal.str r.deadline_date),
   ("recommend_date", match r.recommend_date with
     | some s => JVal.str s
     | none => JVal.null)]

/-- Model of `CalendarHandler.serve_deadlines`: the `group` query parameter
(`none` when absent), with the literal `'ALL'` mapped to the unfiltered
query before `get_deadlines_by_group` is called. -/
def serveDeadlines (db : List DbRow) (groupParam : Option String) :
    List (List (String × JVal)) :=
  let mg := if groupParam = some "ALL" then none else groupParam
  (getDeadlinesByGroup db mg).map formatEntry

/-! ## The `/calendar/{name}.ics` endpoint -/

structure CalEvent where
  name : String
  beginDate : Date
  description : String
  categories : List String
  uid : String
deriving DecidableEq, Repr

/-- The event built for one database row inside `generate_calendar`
(`d` is the parsed deadline date). -/
def mkEvent (mg : Option String) (r : DbRow) (d : Date) : CalEvent :=
  ⟨r.module_code ++ " " ++ r.assignment_code ++ " deadline",
   d,
   "Assignment deadline for " ++ r.module_code ++ " " ++ r.assignment_code,
   (match mg with | some g => [g] | none => ["Assignment"]),
   r.module_code ++ "-" ++ r.assignment_code ++ "-" ++ r.deadline_date
     ++ "@deadlines-calendar"⟩

structure Calendar where
  calName : String
  events : List CalEvent
deriving DecidableEq, Repr

/-- The event loop of `generate_calendar`: `strptime` on a stored
deadline raises on malformed text, aborting the whole response, hence
`Option`. -/
def buildEvents (mg : Option String) : List DbRow → Option (List CalEvent)
  | [] => some []
  | r :: rs =>
    match parseISODate r.deadline_date, buildEvents mg rs with
    | some d, some evs => some (mkEvent mg r d :: evs)
    | _, _ => none

/-- Model of `CalendarHandler.generate_calendar`. -/
def generateCalendar (db : List DbRow) (mg : Option String)
    (name : String) : Option Calendar :=
  (buildEvents mg (getDeadlinesByGroup db mg)).map (fun evs => ⟨name, evs⟩)

/-- The expression `path.split('/')[-1]`. -/
def lastSeg (path : String) : String :=
  (pySplit path '/').getLastD ""

/-- Model of `CalendarHandler.serve_calendar` for a request path: `all.ics` keeps
every group, any other stem is upper-cased into a group filter with no
existence check; on success the handler answers HTTP 200 with the
serialized calendar. -/
def serveCalendar (db : List DbRow) (path : String) :
    Option (Nat × Calendar) :=
  let filename := lastSeg path
  let mg : Option String :=
    if filename = "all.ics" then none
    else some (pyUpper (pyReplace filename ".ics" ""))
  let calName :=
    if filename = "all.ics" then "All Assignment Deadlines April 2026"
    else pyUpper (pyReplace filename ".ics" "") ++ " Marking Deadlines April 2026"
  (generateCalendar db mg calName).map (fun cal => (200, cal))

/-! ## The static generator (`deadlines_to_ics.py`) -/

/-- An event of a static calendar: name uses the raw (untrimmed) module
and code text; begin is the parsed deadline. -/
structure SEvent where
  name : String
  startDate : Date
deriving DecidableEq, Repr

/-- The per-row work of the `generate_static_files` reader loop,
projected on group `g`: rows with fewer than four fields or an unparsable
deadline are skipped; an event lands in the calendar of the first group
whose key prefixes the trimmed upper-cased module code. -/
def rowEvent (row : List String) (g : String) : Option SEvent :=
  match row with
  | module :: code :: _ :: dlStr :: _ =>
    match parseDateDMY (pyStrip dlStr) with
    | none => none
    | some d =>
      match findModuleGroup module with
      | some g' => if g' = g then some ⟨module ++ " " ++ code ++ " deadline", d⟩ else none
      | none => none
  | _ => none

/-- The events accumulated in `calendars[g]` after the reader loop. -/
def staticEventsFor (rows : List (List String)) (g : String) : List SEvent :=
  rows.filterMap (fun row => rowEvent row g)

/-- The file name `module_files[g]`, an f-string interpolating group, month, year. -/
def fileName (g : String) (year : Int) (month : String) : String :=
  g ++ (" Assignment Deadlines " ++ month ++ " " ++ toString year ++ ".ics")

/-- The write loop of `generate_static_files`: one output file per group
whose calendar is nonempty, in dict order, holding that group's events. -/
def staticFiles (rows : List (List String)) (year : Int) (month : String) :
    List (String × List SEvent) :=
  moduleGroups.filterMap (fun g =>
    if (staticEventsFor rows g).isEmpty then none
    else some (fileName g year month, staticEventsFor rows g))

/-- The confirmation lines printed by the write loop. -/
def staticPrints (rows : List (List String)) (year : Int) (month : String) :
    List String :=
  (staticFiles rows year month).map (fun p => "ICS file written to " ++ p.1)

/-! ## The CLI of `deadlines_to_ics.py` -/

structure Args where
  input_path : Option String
  yearArg : Option Int
  monthArg : Option String
  to_database : Bool
  start_server : Bool

inductive Action where
  | startServerA
  | printUsage
  | printFileNotFound
  | importDatabase (path : String)
  | printYearError
  | printMonthError
  | generateFiles (path : String) (year : Int) (month : String)
  | exitNonzero
deriving DecidableEq, Repr

def validMonths : List String :=
  ["January", "February", "March", "April", "May", "June",
   "July", "August", "September", "October", "November", "December"]

/-- Model of `year = args.year if args.year else 2026`: Python truthiness, so a
missing flag and the value 0 both fall back to the default. -/
def effYear (y : Option Int) : Int :=
  match y with
  | some v => if v = 0 then 2026 else v
  | none => 2026

/-- Model of `month = args.month if args.month else 'September'` (truthiness: an
empty string also falls back). -/
def effMonth (m : Option String) : String :=
  match m with
  | some v => if v = "" then "September" else v
  | none => "September"

/-- The observable action sequence of `main()` in `deadlines_to_ics.py`.
`fileExists` models `os.path.exists`. The `--start-server` test comes
first and returns immediately, so the `if args.start_server` inside the
`--to-database` branch is unreachable (kept as in the source). -/
def mainActions (fileExists : String → Bool) (a : Args) : List Action :=
  if a.start_server then [Action.startServerA]
  else
    match a.input_path with
    | none => [Action.printUsage, Action.exitNonzero]
    | some p =>
      if !(fileExists p) then [Action.printFileNotFound, Action.exitNonzero]
      else if a.to_database then
        [Action.importDatabase p] ++
          (if a.start_server then [Action.startServerA] else [])
      else
        let y := effYear a.yearArg
        let m := effMonth a.monthArg
        if y < 1900 ∨ y > 3000 then [Action.printYearError, Action.exitNonzero]
        else if m ∉ validMonths then [Action.printMonthError, Action.exitNonzero]
        else [Action.generateFiles p y m]

/-! ## Concrete sample data for the worked examples -/

/-- The record produced by importing the TSV row `CM1A⟶X1⟶⟶01/12/2026`. -/
def sampleRow : DbRow :=
  ⟨"CM1A", "CM1", "X1", "CM1A X1", none, "2026-12-01", "2026", true⟩

/-- A two-row TSV with one CM1 row and one CB row. -/
def sampleTsv : List (List String) :=
  [["CM1A", "X1", "", "01/12/2026"], ["CB1", "X1", "", "02/12/2026"]]

/-! ## Helper lemmas -/

theorem mem_insertSorted {α : Type} (le : α → α → Bool) (a x : α) (l : List α) :
    x ∈ insertSorted le a l ↔ x = a ∨ x ∈ l := by
  induction l with
  | nil => simp [insertSorted]
  | cons b bs ih =>
    rw [insertSorted]
    split
    · simp
    · simp only [List.mem_cons, ih]
      tauto

theorem mem_sortByBool {α : Type} (le : α → α → Bool) (x : α) (l : List α) :
    x ∈ sortByBool le l ↔ x ∈ l := by
  induction l with
  | nil => simp [sortByBool]
  | cons a as ih =>
    rw [sortByBool, mem_insertSorted]
    simp [ih]

theorem sortByBool_eq_nil_iff {α : Type} (le : α → α → Bool) (l : List α) :
    sortByBool le l = [] ↔ l = [] := by
  cases l with
  | nil => simp [sortByBool]
  | cons a as =>
    simp only [sortByBool]
    constructor
    · intro h
      have ha : a ∈ insertSorted le a (sortByBool le as) :=
        (mem_insertSorted le a a _).mpr (Or.inl rfl)
      rw [h] at ha
      cases ha
    · intro h
      cases h

theorem filterMap_ite_eq_filter_map {α β : Type} (p : α → Bool) (f : α → β)
    (l : List α) :
    (l.filterMap fun a => if p a then none else some (f a)) =
      (l.filter fun a => !p a).map f := by
  induction l with
  | nil => rfl
  | cons a as ih =>
    by_cases h : p a <;>
      simp [List.filterMap_cons, List.filter_cons, h, ih]

theorem isDigit_toNat_bounds (c : Char) (h : c.isDigit = true) :
    48 ≤ c.toNat ∧ c.toNat ≤ 57 := by
  simpa [Char.isDigit] using h

theorem digitChar_spec : ∀ k, k ≤ 9 →
    (digitChar k).toNat = 48 + k ∧ (digitChar k).isDigit = true ∧
      digitChar k ≠ '-' ∧ digitChar k ≠ '/' := by decide

theorem pyToNat_pad2 (n : Nat) (h : n ≤ 99) : pyToNat (pad2 n) = some n := by
  have h1 := digitChar_spec (n / 10 % 10) (by omega)
  have h2 := digitChar_spec (n % 10) (by omega)
  unfold pyToNat pad2
  rw [if_pos]
  · congr 1
    simp only [List.foldl_cons, List.foldl_nil]
    rw [h1.1, h2.1]
    omega
  · exact ⟨by simp, by simp [h1.2.1, h2.2.1]⟩

theorem pyToNat_pad4 (n : Nat) (h : n ≤ 9999) : pyToNat (pad4 n) = some n := by
  have h1 := digitChar_spec (n / 1000 % 10) (by omega)
  have h2 := digitChar_spec (n / 100 % 10) (by omega)
  have h3 := digitChar_spec (n / 10 % 10) (by omega)
  have h4 := digitChar_spec (n % 10) (by omega)
  unfold pyToNat pad4
  rw [if_pos]
  · congr 1
    simp only [List.foldl_cons, List.foldl_nil]
    rw [h1.1, h2.1, h3.1, h4.1]
    omega
  · exact ⟨by simp, by simp [h1.2.1, h2.2.1, h3.2.1, h4.2.1]⟩

theorem pad2_no_dash (n : Nat) : ∀ x ∈ (pad2 n).data, x ≠ '-' := by
  have h1 := digitChar_spec (n / 10 % 10) (by omega)
  have h2 := digitChar_spec (n % 10) (by omega)
  intro x hx
  rcases hx with _ | ⟨_, _ | ⟨_, h⟩⟩
  · exact h1.2.2.1
  · exact h2.2.2.1
  · cases h

theorem pad4_no_dash (n : Nat) : ∀ x ∈ (pad4 n).data, x ≠ '-' := by
  have h1 := digitChar_spec (n / 1000 % 10) (by omega)
  have h2 := digitChar_spec (n / 100 % 10) (by omega)
  have h3 := digitChar_spec (n / 10 % 10) (by omega)
  have h4 := digitChar_spec (n % 10) (by omega)
  intro x hx
  rcases hx with _ | ⟨_, _ | ⟨_, _ | ⟨_, _ | ⟨_, h⟩⟩⟩⟩
  · exact h1.2.2.1
  · exact h2.2.2.1
  · exact h3.2.2.1
  · exact h4.2.2.1
  · cases h

theorem splitChar_ne_nil (c : Char) (l : List Char) : splitChar c l ≠ [] := by
  cases l with
  | nil => simp [splitChar]
  | cons x xs =>
    rw [splitChar]
    cases h : splitChar c xs with
    | nil => simp
    | cons ys rest =>
      dsimp
      split <;> simp

theorem splitChar_no_sep (c : Char) (l : List Char) (h : ∀ x ∈ l, x ≠ c) :
    splitChar c l = [l] := by
  induction l with
  | nil => rfl
  | cons x xs ih =>
    rw [splitChar, ih (fun y hy => h y (List.mem_cons_of_mem _ hy))]
    simp [h x (List.mem_cons_self x xs)]

theorem splitChar_append_sep (c : Char) (l r : List Char)
    (h : ∀ x ∈ l, x ≠ c) :
    splitChar c (l ++ c :: r) = l :: splitChar c r := by
  induction l with
  | nil =>
    rw [List.nil_append, splitChar]
    cases hr : splitChar c r with
    | nil => exact absurd hr (splitChar_ne_nil c r)
    | cons ys rest => simp
  | cons x xs ih =>
    rw [List.cons_append, splitChar,
      ih (fun y hy => h y (List.mem_cons_of_mem _ hy))]
    simp [h x (List.mem_cons_self x xs)]

theorem toISO_data (dt : Date) :
    dt.toISO.data =
      (pad4 dt.year).data ++
        '-' :: ((pad2 dt.month).data ++ '-' :: (pad2 dt.day).data) := by
  simp [Date.toISO, String.data_append]

theorem daysInMonth_le_31 (m y : Nat) : daysInMonth m y ≤ 31 := by
  unfold daysInMonth
  split
  · split <;> omega
  · split <;> omega

theorem parseISODate_toISO (dt : Date)
    (h1 : 1 ≤ dt.day) (h2 : dt.day ≤ daysInMonth dt.month dt.year)
    (h3 : 1 ≤ dt.month) (h4 : dt.month ≤ 12)
    (h5 : 1 ≤ dt.year) (h6 : dt.year ≤ 9999) :
    parseISODate dt.toISO = some dt := by
  have hday31 : dt.day ≤ 31 := le_trans h2 (daysInMonth_le_31 dt.month dt.year)
  have hs : pySplit dt.toISO '-' = [pad4 dt.year, pad2 dt.month, pad2 dt.day] := by
    unfold pySplit
    rw [toISO_data,
      splitChar_append_sep '-' _ _ (pad4_no_dash dt.year),
      splitChar_append_sep '-' _ _ (pad2_no_dash dt.month),
      splitChar_no_sep '-' _ (pad2_no_dash dt.day)]
    rfl
  have hy : parseYearField (pad4 dt.year) = some dt.year := by
    unfold parseYearField
    rw [pyToNat_pad4 dt.year h6]
    exact if_pos ⟨rfl, h5⟩
  have hm : parseMonthField (pad2 dt.month) = some dt.month := by
    unfold parseMonthField
    rw [pyToNat_pad2 dt.month (by omega)]
    exact if_pos ⟨Nat.le.refl, h3, h4⟩
  have hd : parseDayField (pad2 dt.day) = some dt.day := by
    unfold parseDayField
    rw [pyToNat_pad2 dt.day (by omega)]
    exact if_pos ⟨Nat.le.refl, h1, hday31⟩
  unfold parseISODate
  rw [hs]
  simp [hy, hm, hd, h2]

theorem foldl_digits_lt (l : List Char) (hl : ∀ c ∈ l, c.isDigit = true) :
    ∀ a : Nat, l.foldl (fun a c => a * 10 + (c.toNat - 48)) a < (a + 1) * 10 ^ l.length := by
  induction l with
  | nil =>
    intro a
    simp only [List.foldl_nil, List.length_nil, pow_zero, Nat.mul_one]
    exact Nat.lt_succ_self a
  | cons c cs ih =>
    intro a
    have hc : c.toNat - 48 ≤ 9 := by
      have := isDigit_toNat_bounds c (hl c (List.mem_cons_self c cs))
      omega
    have step := ih (fun x hx => hl x (List.mem_cons_of_mem c hx))
      (a * 10 + (c.toNat - 48))
    simp only [List.foldl_cons, List.length_cons]
    calc List.foldl (fun a c => a * 10 + (c.toNat - 48)) (a * 10 + (c.toNat - 48)) cs
        < (a * 10 + (c.toNat - 48) + 1) * 10 ^ cs.length := step
      _ ≤ ((a + 1) * 10) * 10 ^ cs.length :=
          Nat.mul_le_mul_right _ (by omega)
      _ = (a + 1) * 10 ^ (cs.length + 1) := by ring

theorem pyToNat_lt (s : String) (v : Nat) (h : pyToNat s = some v) :
    v < 10 ^ s.data.length := by
  unfold pyToNat at h
  split at h
  case isTrue hc =>
    cases h
    have := foldl_digits_lt s.data
      (by simpa [List.all_eq_true] using hc.2) 0
    simpa using this
  case isFalse => cases h

theorem parseDayField_bounds (s : String) (v : Nat)
    (h : parseDayField s = some v) : 1 ≤ v ∧ v ≤ 31 := by
  unfold parseDayField at h
  split at h
  case _ v' hv' =>
    split at h
    case isTrue hc => cases h; exact ⟨hc.2.1, hc.2.2⟩
    case isFalse => cases h
  case _ => cases h

theorem parseMonthField_bounds (s : String) (v : Nat)
    (h : parseMonthField s = some v) : 1 ≤ v ∧ v ≤ 12 := by
  unfold parseMonthField at h
  split at h
  case _ v' hv' =>
    split at h
    case isTrue hc => cases h; exact ⟨hc.2.1, hc.2.2⟩
    case isFalse => cases h
  case _ => cases h

theorem parseYearField_bounds (s : String) (v : Nat)
    (h : parseYearField s = some v) : 1 ≤ v ∧ v ≤ 9999 := by
  unfold parseYearField at h
  split at h
  case _ v' hv' =>
    split at h
    case isTrue hc =>
      cases h
      have := pyToNat_lt s v hv'
      rw [hc.1] at this
      exact ⟨hc.2, by omega⟩
    case isFalse => cases h
  case _ => cases h

theorem parseDateDMY_bounds (s : String) (dt : Date)
    (h : parseDateDMY s = some dt) :
    1 ≤ dt.day ∧ dt.day ≤ daysInMonth dt.month dt.year ∧
      1 ≤ dt.month ∧ dt.month ≤ 12 ∧ 1 ≤ dt.year ∧ dt.year ≤ 9999 := by
  unfold parseDateDMY at h
  split at h
  case _ ds ms ys hsp =>
    cases hd : parseDayField ds with
    | none => rw [hd] at h; simp at h
    | some d =>
      rw [hd] at h
      cases hm : parseMonthField ms with
      | none => rw [hm] at h; simp at h
      | some m =>
        rw [hm] at h
        cases hy : parseYearField ys with
        | none => rw [hy] at h; simp at h
        | some y =>
          rw [hy] at h
          simp only [] at h
          split at h
          case isTrue hle =>
            cases h
            obtain ⟨hd1, hd2⟩ := parseDayField_bounds ds d hd
            obtain ⟨hm1, hm2⟩ := parseMonthField_bounds ms m hm
            obtain ⟨hy1, hy2⟩ := parseYearField_bounds ys y hy
            exact ⟨hd1, hle, hm1, hm2, hy1, hy2⟩
          case isFalse => cases h
  case _ => cases h

/-- Every record built by `importRow` carries a group from the fixed
table, the default academic year and active flag, and an ISO deadline
text that `generate_calendar` can parse back. -/
theorem importRow_inv (row : List String) (r : DbRow)
    (h : importRow row = some r) :
    r.module_group ∈ moduleGroups ∧ r.academic_year = "2026" ∧
      r.is_active = true ∧
      ∃ dt : Date, r.deadline_date = dt.toISO ∧
        parseISODate r.deadline_date = some dt := by
  unfold importRow at h
  split at h
  case _ module code recStr dlStr rest =>
    split at h
    case _ => cases h
    case _ g hg =>
      split at h
      case _ => cases h
      case _ d hd =>
        have hb := parseDateDMY_bounds _ d hd
        have hiso : parseISODate d.toISO = some d :=
          parseISODate_toISO d hb.1 hb.2.1 hb.2.2.1 hb.2.2.2.1 hb.2.2.2.2.1 hb.2.2.2.2.2
        have hgm : g ∈ moduleGroups := List.mem_of_find?_eq_some hg
        split at h
        case isTrue =>
          cases h
          exact ⟨hgm, rfl, rfl, d, rfl, hiso⟩
        case isFalse =>
          split at h
          case _ => cases h
          case _ rd hrd =>
            cases h
            exact ⟨hgm, rfl, rfl, d, rfl, hiso⟩
  case _ => cases h

/-- Fold invariant for the import loop: a property that holds of the
accumulator and of every freshly inserted record holds of every member of
the final store. -/
theorem foldl_importStep_mem (P : DbRow → Prop) (rows : List (List String))
    (acc : List DbRow) (hacc : ∀ x ∈ acc, P x)
    (hnew : ∀ row r, importRow row = some r → P r) :
    ∀ x ∈ rows.foldl importStep acc, P x := by
  induction rows generalizing acc with
  | nil => simpa using hacc
  | cons row rows ih =>
    simp only [List.foldl_cons]
    apply ih
    intro x hx
    unfold importStep at hx
    revert hx
    cases hir : importRow row with
    | none => exact fun hx => hacc x hx
    | some r =>
      intro hx
      unfold insertOrReplace at hx
      rcases List.mem_append.mp hx with hmem | hmem
      · exact hacc x (List.mem_filter.mp hmem).1
      · simp only [List.mem_singleton] at hmem
        rw [hmem]
        exact hnew row r hir

/-- Every record in the store after an import came from `importRow`. -/
theorem mem_importFromTsv_inv (db : List DbRow) (rows : List (List String)) :
    ∀ r ∈ importFromTsv db rows, ∃ row, importRow row = some r := by
  intro r hr
  exact foldl_importStep_mem (fun x => ∃ row, importRow row = some x) rows
    (clearAll db) (by simp [clearAll]) (fun row x h => Exists.intro row h) r hr

theorem toNat_ofNat_valid (n : Nat) (h : n.isValidChar) :
    (Char.ofNat n).toNat = n := by
  rw [Char.ofNat, dif_pos h]; rfl

theorem toUpper_toUpper (c : Char) : c.toUpper.toUpper = c.toUpper := by
  unfold Char.toUpper
  simp only []
  by_cases h : c.toNat ≥ 97 ∧ c.toNat ≤ 122
  · rw [if_pos h]
    have hv : Nat.isValidChar (c.toNat - 32) := Or.inl (by omega)
    have ht : (Char.ofNat (c.toNat - 32)).toNat = c.toNat - 32 :=
      toNat_ofNat_valid _ hv
    rw [if_neg (by rw [ht]; omega)]
  · rw [if_neg h, if_neg h]

theorem pyUpper_pyUpper (s : String) : pyUpper (pyUpper s) = pyUpper s := by
  show String.mk ((s.data.map Char.toUpper).map Char.toUpper)
      = String.mk (s.data.map Char.toUpper)
  congr 1
  rw [List.map_map]
  exact List.map_congr_left (fun a _ => toUpper_toUpper a)

theorem sameKey_iff (a b : DbRow) :
    sameKey a b = true ↔
      (a.module_code, a.assignment_code, a.academic_year) =
        (b.module_code, b.assignment_code, b.academic_year) := by
  simp [sameKey, Prod.ext_iff, and_assoc]

theorem insertOrReplace_pairwise (db : List DbRow) (r : DbRow)
    (h : db.Pairwise (fun a b => sameKey a b = false)) :
    (insertOrReplace db r).Pairwise (fun a b => sameKey a b = false) := by
  unfold insertOrReplace
  rw [List.pairwise_append]
  refine ⟨h.filter _, by simp, ?_⟩
  intro a ha b hb
  rw [List.mem_filter] at ha
  simp only [List.mem_singleton] at hb
  rw [hb]
  simpa using ha.2

theorem importFromTsv_pairwise (db : List DbRow) (rows : List (List String)) :
    (importFromTsv db rows).Pairwise (fun a b => sameKey a b = false) := by
  suffices H : ∀ acc : List DbRow,
      acc.Pairwise (fun a b => sameKey a b = false) →
      (rows.foldl importStep acc).Pairwise (fun a b => sameKey a b = false) by
    exact H (clearAll db) (by simp [clearAll])
  induction rows with
  | nil => exact fun acc h => h
  | cons row rows ih =>
    intro acc hacc
    simp only [List.foldl_cons]
    apply ih
    cases hir : importRow row with
    | none => simpa [importStep, hir] using hacc
    | some r =>
      simpa [importStep, hir] using insertOrReplace_pairwise acc r hacc

theorem buildEvents_some (mg : Option String) (l : List DbRow)
    (h : ∀ r ∈ l, (parseISODate r.deadline_date).isSome) :
    ∃ evs, buildEvents mg l = some evs ∧
      ∀ r ∈ l, ∀ d, parseISODate r.deadline_date = some d →
        mkEvent mg r d ∈ evs := by
  induction l with
  | nil => exact ⟨[], rfl, by simp⟩
  | cons r rs ih =>
    obtain ⟨d, hd⟩ :=
      Option.isSome_iff_exists.mp (h r (List.mem_cons_self r rs))
    obtain ⟨evs, hevs, hmem⟩ := ih (fun x hx => h x (List.mem_cons_of_mem _ hx))
    refine ⟨mkEvent mg r d :: evs, ?_, ?_⟩
    · simp [buildEvents, hd, hevs]
    · intro x hx d' hd'
      rcases List.mem_cons.mp hx with rfl | hx
      · rw [hd] at hd'
        cases hd'
        exact List.mem_cons_self _ _
      · exact List.mem_cons_of_mem _ (hmem x hx d' hd')

theorem fileName_inj (g g' : String) (y : Int) (m : String)
    (h : fileName g y m = fileName g' y m) : g = g' := by
  unfold fileName at h
  have hd := congrArg String.data h
  rw [String.data_append, String.data_append] at hd
  exact String.ext (List.append_cancel_right hd)

/-! ## The claims -/

/-- C1: for every input row, the module code is trimmed, upper-cased and
assigned to the first group of the fixed enumeration CM1, CM2, CS1, CS2,
CB, CP1, CP2, CP3, SP, SA whose code prefixes it; a module code matching
none of the ten prefixes makes the row unclassifiable and it is excluded
from the imported store and from every static calendar. -/
theorem moduleGroup_classification (s g : String) :
    (findModuleGroup s = some g ↔
      (pyStartsWith (pyUpper (pyStrip s)) g = true ∧
        ∃ l1 l2, moduleGroups = l1 ++ g :: l2 ∧
          ∀ g' ∈ l1, pyStartsWith (pyUpper (pyStrip s)) g' = false))
    ∧ (findModuleGroup s = none ↔
        ∀ g' ∈ moduleGroups, pyStartsWith (pyUpper (pyStrip s)) g' = false)
    ∧ (findModuleGroup s = none →
        (∀ code recStr dlStr rest,
            importRow (s :: code :: recStr :: dlStr :: rest) = none)
        ∧ (∀ code recStr dlStr rest g',
            rowEvent (s :: code :: recStr :: dlStr :: rest) g' = none)) := by
  refine ⟨?_, ?_, ?_⟩
  · rw [findModuleGroup, List.find?_eq_some]
    constructor
    · rintro ⟨hp, as, bs, heq, hall⟩
      exact ⟨hp, as, bs, heq, fun g' hg' => by simpa using hall g' hg'⟩
    · rintro ⟨hp, as, bs, heq, hall⟩
      exact ⟨hp, as, bs, heq, fun g' hg' => by simp [hall g' hg']⟩
  · rw [findModuleGroup, List.find?_eq_none]
    constructor
    · intro h g' hg'
      simpa using h g' hg'
    · intro h g' hg'
      simp [h g' hg']
  · intro h
    constructor
    · intro code recStr dlStr rest
      simp [importRow, h]
    · intro code recStr dlStr rest g'
      cases hd : parseDateDMY (pyStrip dlStr) <;> simp [rowEvent, h, hd]

theorem moduleGroup_classification_witness :
    findModuleGroup "ZZ9" = none ∧
    importRow ["ZZ9", "X1", "", "01/12/2026"] = none ∧
    rowEvent ["ZZ9", "X1", "", "01/12/2026"] "CM1" = none := by
  have hn : findModuleGroup "ZZ9" = none := by decide
  have h := (moduleGroup_classification "ZZ9" "CM1").2.2 hn
  exact ⟨hn, h.1 "X1" "" "01/12/2026" [], h.2 "X1" "" "01/12/2026" [] "CM1"⟩

/-- C2: for a TSV row with at least four fields and a classifiable module
code, a record is stored iff the deadline text parses as DD/MM/YYYY and
the recommended text, when nonempty after trimming, parses too; either
failure drops the whole row, and a deadline 01/12/2026 is stored as ISO
2026-12-01 (31/02/2026 is an invalid calendar date and drops the row). -/
theorem row_date_validation (module code recStr dlStr : String)
    (rest : List String) (g : String)
    (hg : findModuleGroup module = some g) :
    ((importRow (module :: code :: recStr :: dlStr :: rest)).isSome ↔
      ((parseDateDMY (pyStrip dlStr)).isSome ∧
        (pyStrip recStr ≠ "" → (parseDateDMY (pyStrip recStr)).isSome)))
    ∧ (pyStrip dlStr = "31/02/2026" →
        importRow (module :: code :: recStr :: dlStr :: rest) = none)
    ∧ (∀ r, importRow (module :: code :: recStr :: dlStr :: rest) = some r →
        pyStrip dlStr = "01/12/2026" → r.deadline_date = "2026-12-01") := by
  have h31 : parseDateDMY "31/02/2026" = none := by decide
  have h01 : parseDateDMY "01/12/2026" = some ⟨1, 12, 2026⟩ := by decide
  have hiso : Date.toISO ⟨1, 12, 2026⟩ = "2026-12-01" := by decide
  refine ⟨?_, ?_, ?_⟩
  · cases hd : parseDateDMY (pyStrip dlStr) with
    | none => simp [importRow, hg, hd]
    | some d =>
      by_cases hr : pyStrip recStr = ""
      · simp [importRow, hg, hd, hr]
      · cases hrc : parseDateDMY (pyStrip recStr) <;>
          simp [importRow, hg, hd, hr, hrc]
  · intro hdl
    simp [importRow, hg, hdl, h31]
  · intro r hsome hdl
    simp only [importRow, hg, hdl, h01] at hsome
    split at hsome
    · cases hsome
      exact hiso
    · split at hsome
      · cases hsome
      · cases hsome
        exact hiso

theorem row_date_validation_witness :
    importRow ["CM1A", "X1", "", "31/02/2026"] = none ∧
    ∃ r, importRow ["CM1A", "X1", "", "01/12/2026"] = some r ∧
      r.deadline_date = "2026-12-01" := by
  have h1 := (row_date_validation "CM1A" "X1" "" "31/02/2026" [] "CM1"
    (by decide)).2.1 (by decide)
  have h2 := row_date_validation "CM1A" "X1" "" "01/12/2026" [] "CM1" (by decide)
  refine ⟨h1, ?_⟩
  have hsome : (importRow ["CM1A", "X1", "", "01/12/2026"]).isSome := by
    rw [h2.1]
    exact ⟨by decide, fun h => absurd (by decide : pyStrip "" = "") h⟩
  obtain ⟨r, hr⟩ := Option.isSome_iff_exists.mp hsome
  exact ⟨r, hr, h2.2.2 r hr (by decide)⟩

/-- C3: after any import the store holds at most one record per
(module_code, assignment_code, academic_year) triple, and for two
classifiable parseable rows with the same trimmed module and assignment
codes exactly one record survives — the later row's. -/
theorem natural_key_unique_last_wins (db : List DbRow)
    (rows : List (List String)) :
    ((importFromTsv db rows).Pairwise (fun a b =>
        (a.module_code, a.assignment_code, a.academic_year) ≠
          (b.module_code, b.assignment_code, b.academic_year)))
    ∧ (∀ row1 row2 r1 r2, importRow row1 = some r1 → importRow row2 = some r2 →
        r1.module_code = r2.module_code →
        r1.assignment_code = r2.assignment_code →
        importFromTsv db [row1, row2] = [r2]) := by
  constructor
  · refine (importFromTsv_pairwise db rows).imp ?_
    intro a b hab hEq
    have := (sameKey_iff a b).mpr hEq
    rw [hab] at this
    cases this
  · intro row1 row2 r1 r2 h1 h2 hmc hac
    have hy1 := (importRow_inv row1 r1 h1).2.1
    have hy2 := (importRow_inv row2 r2 h2).2.1
    have hkey : sameKey r1 r2 = true := by
      rw [sameKey_iff, hmc, hac, hy1, hy2]
    simp only [importFromTsv, clearAll, List.foldl_cons, List.foldl_nil,
      importStep, h1, h2]
    simp [insertOrReplace, hkey]

theorem natural_key_unique_last_wins_witness :
    importFromTsv []
        [["CM1A", "X1", "", "01/12/2026"], [" CM1A ", "X1", "", "02/12/2026"]] =
      [⟨"CM1A", "CM1", "X1", "CM1A X1", none, "2026-12-02", "2026", true⟩] :=
  (natural_key_unique_last_wins [] []).2
    ["CM1A", "X1", "", "01/12/2026"] [" CM1A ", "X1", "", "02/12/2026"]
    ⟨"CM1A", "CM1", "X1", "CM1A X1", none, "2026-12-01", "2026", true⟩
    ⟨"CM1A", "CM1", "X1", "CM1A X1", none, "2026-12-02", "2026", true⟩
    (by decide) (by decide) rfl rfl

/-- C4: ingestion first clears every stored row and then inserts the
freshly parsed set, so the result never depends on the prior state and
ingesting the same TSV twice equals ingesting it once. -/
theorem import_full_replace_idempotent (db : List DbRow)
    (rows : List (List String)) :
    importFromTsv db rows = rows.foldl importStep []
    ∧ importFromTsv db rows = importFromTsv [] rows
    ∧ importFromTsv (importFromTsv db rows) rows = importFromTsv db rows :=
  ⟨rfl, rfl, rfl⟩

theorem mem_getDeadlinesByGroup (db : List DbRow) (mg : Option String)
    (r : DbRow) (h : r ∈ getDeadlinesByGroup db mg) :
    r ∈ db ∧ r.is_active = true := by
  cases mg with
  | none =>
    simp only [getDeadlinesByGroup] at h
    obtain ⟨h1, h2⟩ := List.mem_filter.mp ((mem_sortByBool _ _ _).mp h)
    exact ⟨h1, h2⟩
  | some grp =>
    simp only [getDeadlinesByGroup] at h
    by_cases hgrp : grp = ""
    · rw [if_pos hgrp] at h
      obtain ⟨h1, h2⟩ := List.mem_filter.mp ((mem_sortByBool _ _ _).mp h)
      exact ⟨h1, h2⟩
    · rw [if_neg hgrp] at h
      obtain ⟨h1, h2⟩ := List.mem_filter.mp ((mem_sortByBool _ _ _).mp h)
      rw [Bool.and_eq_true] at h2
      exact ⟨h1, h2.2⟩

theorem imported_parse_ok (db0 : List DbRow) (rows : List (List String)) :
    ∀ r ∈ importFromTsv db0 rows, (parseISODate r.deadline_date).isSome := by
  intro r hr
  obtain ⟨row, hrow⟩ := mem_importFromTsv_inv db0 rows r hr
  obtain ⟨_, _, _, dt, _, hp⟩ := importRow_inv row r hrow
  rw [hp]
  rfl

/-- C5: on a store produced by ingestion, requesting
`/calendar/{name}.ics` for any nonempty `{name}` other than `all` answers
HTTP 200 with a calendar; when no active record carries the upper-cased
stem as its group the calendar has zero events (never a not-found or
error), while `/calendar/all.ics` answers 200 with the events of every
active record of every group. -/
theorem serve_calendar_unknown_group (db0 : List DbRow)
    (rows : List (List String)) (path : String) :
    (lastSeg path ≠ "all.ics" →
      pyUpper (pyReplace (lastSeg path) ".ics" "") ≠ "" →
      ∃ cal, serveCalendar (importFromTsv db0 rows) path = some (200, cal)
        ∧ ((∀ r ∈ importFromTsv db0 rows, r.is_active = true →
              r.module_group ≠ pyUpper (pyReplace (lastSeg path) ".ics" "")) →
            cal.events = []))
    ∧ (∃ cal,
        serveCalendar (importFromTsv db0 rows) "/calendar/all.ics" =
          some (200, cal)
        ∧ ∀ r ∈ importFromTsv db0 rows, r.is_active = true →
            ∀ d, parseISODate r.deadline_date = some d →
              mkEvent none r d ∈ cal.events) := by
  constructor
  · intro hne hne2
    have hgd : getDeadlinesByGroup (importFromTsv db0 rows)
        (some (pyUpper (pyReplace (lastSeg path) ".ics" ""))) =
        sortByBool rowLe ((importFromTsv db0 rows).filter
          (fun r => r.module_group ==
              pyUpper (pyUpper (pyReplace (lastSeg path) ".ics" "")) &&
            r.is_active)) := by
      simp only [getDeadlinesByGroup]
      rw [if_neg hne2]
    have hparse : ∀ r ∈ getDeadlinesByGroup (importFromTsv db0 rows)
        (some (pyUpper (pyReplace (lastSeg path) ".ics" ""))),
        (parseISODate r.deadline_date).isSome := fun r hr =>
      imported_parse_ok db0 rows r (mem_getDeadlinesByGroup _ _ r hr).1
    obtain ⟨evs, hevs, _⟩ := buildEvents_some _ _ hparse
    refine ⟨⟨pyUpper (pyReplace (lastSeg path) ".ics" "") ++
        " Marking Deadlines April 2026", evs⟩, ?_, ?_⟩
    · simp only [serveCalendar, generateCalendar]
      rw [if_neg hne, if_neg hne, hevs]
      rfl
    · intro hnone
      have hfil : (importFromTsv db0 rows).filter
          (fun r => r.module_group ==
              pyUpper (pyUpper (pyReplace (lastSeg path) ".ics" "")) &&
            r.is_active) = [] := by
        rw [List.filter_eq_nil_iff]
        intro r hr
        rw [pyUpper_pyUpper]
        by_cases hact : r.is_active = true
        · simp [hact, hnone r hr hact]
        · have : r.is_active = false := by
            revert hact; cases r.is_active <;> simp
          simp [this]
      rw [hgd, hfil] at hevs
      simp only [sortByBool, buildEvents] at hevs
      cases hevs
      rfl
  · have hlast : lastSeg "/calendar/all.ics" = "all.ics" := by decide
    have hparse : ∀ r ∈ getDeadlinesByGroup (importFromTsv db0 rows) none,
        (parseISODate r.deadline_date).isSome := fun r hr =>
      imported_parse_ok db0 rows r (mem_getDeadlinesByGroup _ _ r hr).1
    obtain ⟨evs, hevs, hmem⟩ := buildEvents_some none _ hparse
    refine ⟨⟨"All Assignment Deadlines April 2026", evs⟩, ?_, ?_⟩
    · simp only [serveCalendar, generateCalendar]
      rw [hlast, if_pos rfl, if_pos rfl, hevs]
      rfl
    · intro r hr hact d hd
      have hmemg : r ∈ getDeadlinesByGroup (importFromTsv db0 rows) none := by
        unfold getDeadlinesByGroup
        exact (mem_sortByBool _ _ _).mpr (List.mem_filter.mpr ⟨hr, hact⟩)
      exact hmem r hmemg d hd

theorem serve_calendar_unknown_group_witness :
    (∃ cal, serveCalendar (importFromTsv [] sampleTsv) "/calendar/zz.ics" =
        some (200, cal) ∧ cal.events = [])
    ∧ (∃ cal, serveCalendar (importFromTsv [] sampleTsv) "/calendar/all.ics" =
        some (200, cal) ∧ mkEvent none sampleRow ⟨1, 12, 2026⟩ ∈ cal.events) := by
  have h := serve_calendar_unknown_group [] sampleTsv "/calendar/zz.ics"
  obtain ⟨cal, hcal, hempty⟩ := h.1 (by decide) (by decide)
  obtain ⟨cal2, hcal2, hall⟩ := h.2
  refine ⟨⟨cal, hcal, hempty (by decide)⟩, ⟨cal2, hcal2, ?_⟩⟩
  exact hall sampleRow (by decide) (by decide) ⟨1, 12, 2026⟩ (by decide)

/-- C6: the static generator writes exactly one file per module group
whose calendar collected at least one event, named
`{GROUP} Assignment Deadlines {Month} {Year}.ics` and holding that
group's events, with one confirmation line per written file; a group with
zero events produces no file. -/
theorem static_file_emission (rows : List (List String)) (y : Int)
    (m : String) :
    staticFiles rows y m =
      (moduleGroups.filter fun g => !(staticEventsFor rows g).isEmpty).map
        (fun g => (fileName g y m, staticEventsFor rows g))
    ∧ (∀ g ∈ moduleGroups,
        ((staticEventsFor rows g).isEmpty = true →
          ∀ evs, (fileName g y m, evs) ∉ staticFiles rows y m)
        ∧ ((staticEventsFor rows g).isEmpty = false →
          (fileName g y m, staticEventsFor rows g) ∈ staticFiles rows y m))
    ∧ staticPrints rows y m =
        (staticFiles rows y m).map (fun p => "ICS file written to " ++ p.1) := by
  have hmain : staticFiles rows y m =
      (moduleGroups.filter fun g => !(staticEventsFor rows g).isEmpty).map
        (fun g => (fileName g y m, staticEventsFor rows g)) :=
    filterMap_ite_eq_filter_map _ _ _
  refine ⟨hmain, ?_, rfl⟩
  intro g hg
  constructor
  · intro hempty evs hmem
    rw [hmain, List.mem_map] at hmem
    obtain ⟨g', hg', heq⟩ := hmem
    rw [List.mem_filter] at hg'
    have hgg : g' = g := fileName_inj g' g y m (congrArg Prod.fst heq)
    rw [hgg] at hg'
    rw [hempty] at hg'
    simp at hg'
  · intro hne
    rw [hmain, List.mem_map]
    exact ⟨g, List.mem_filter.mpr ⟨hg, by rw [hne]; rfl⟩, rfl⟩

theorem static_file_emission_witness :
    ((fileName "CM2" 2026 "September", ([] : List SEvent)) ∉
        staticFiles sampleTsv 2026 "September")
    ∧ (fileName "CM1" 2026 "September", staticEventsFor sampleTsv "CM1") ∈
        staticFiles sampleTsv 2026 "September" := by
  have h := static_file_emission sampleTsv 2026 "September"
  exact ⟨(h.2.1 "CM2" (by decide)).1 (by decide) [],
    (h.2.1 "CM1" (by decide)).2 (by decide)⟩

/-- C7, counterexample: `serve_deadlines` always emits the
`recommend_date` key; for a record with no recommended date the entry
carries the key with JSON `null` instead of omitting it, contradicting
the claimed absence. -/
theorem deadlines_recommend_null_counterexample :
    sampleRow.recommend_date = none ∧
    serveDeadlines [sampleRow] (some "CM1") =
      [[("module_code", JVal.str "CM1A"), ("assignment_code", JVal.str "X1"),
        ("title", JVal.str "CM1A X1"),
        ("deadline_date", JVal.str "2026-12-01"),
        ("recommend_date", JVal.null)]] ∧
    ("recommend_date", JVal.null) ∈
      [("module_code", JVal.str "CM1A"), ("assignment_code", JVal.str "X1"),
       ("title", JVal.str "CM1A X1"),
       ("deadline_date", JVal.str "2026-12-01"),
       ("recommend_date", JVal.null)] := by decide

/-- C7, amended: every `/api/deadlines` entry exposes exactly the keys
module_code, assignment_code, title, deadline_date and recommend_date,
with deadline_date the ISO text of a date; when the record's recommended
date is unset the recommend_date key is present with value null (and with
the stored string otherwise). -/
theorem deadlines_entry_shape_amended (db0 : List DbRow)
    (rows : List (List String)) (g : Option String) :
    ∀ e ∈ serveDeadlines (importFromTsv db0 rows) g,
      e.map Prod.fst =
        ["module_code", "assignment_code", "title", "deadline_date",
         "recommend_date"]
      ∧ ∃ r ∈ importFromTsv db0 rows, e = formatEntry r
          ∧ (∃ dt : Date, r.deadline_date = dt.toISO)
          ∧ (r.recommend_date = none → ("recommend_date", JVal.null) ∈ e)
          ∧ (∀ s, r.recommend_date = some s →
              ("recommend_date", JVal.str s) ∈ e) := by
  intro e he
  unfold serveDeadlines at he
  rw [List.mem_map] at he
  obtain ⟨r, hr, rfl⟩ := he
  have hrdb : r ∈ importFromTsv db0 rows :=
    (mem_getDeadlinesByGroup _ _ r hr).1
  obtain ⟨row, hrow⟩ := mem_importFromTsv_inv db0 rows r hrdb
  obtain ⟨_, _, _, dt, hdt, _⟩ := importRow_inv row r hrow
  refine ⟨rfl, r, hrdb, rfl, ⟨dt, hdt⟩, ?_, ?_⟩
  · intro h
    simp [formatEntry, h]
  · intro s h
    simp [formatEntry, h]

theorem deadlines_entry_shape_amended_witness :
    (formatEntry sampleRow).map Prod.fst =
      ["module_code", "assignment_code", "title", "deadline_date",
       "recommend_date"]
    ∧ ∃ r ∈ importFromTsv [] [["CM1A", "X1", "", "01/12/2026"]],
        formatEntry sampleRow = formatEntry r
        ∧ (∃ dt : Date, r.deadline_date = dt.toISO)
        ∧ (r.recommend_date = none →
            ("recommend_date", JVal.null) ∈ formatEntry sampleRow)
        ∧ (∀ s, r.recommend_date = some s →
            ("recommend_date", JVal.str s) ∈ formatEntry sampleRow) :=
  deadlines_entry_shape_amended [] [["CM1A", "X1", "", "01/12/2026"]]
    (some "CM1") (formatEntry sampleRow) (by decide)

/-- C8: the `main()` dispatch of the conversion tool handles
`--start-server` first and returns at once, so an invocation carrying
both `--to-database` and `--start-server` with an existing input path
only starts the server and never imports the TSV — the import-then-serve
branch is unreachable. -/
theorem combined_flags_code_behavior :
    mainActions (fun _ => true) ⟨some "input.tsv", none, none, true, true⟩ =
      [Action.startServerA]
    ∧ Action.importDatabase "input.tsv" ∉
        mainActions (fun _ => true) ⟨some "input.tsv", none, none, true, true⟩ := by
  decide

/-- C9, counterexample: `--year 0` lies outside [1900, 3000] yet the tool
generates files with the default year 2026 and exits successfully
(Python truthiness treats 0 as an absent flag); and with `--to-database`
an out-of-range `--year 1899` is ignored entirely. -/
theorem year_month_validation_counterexample :
    mainActions (fun _ => true) ⟨some "in.tsv", some 0, none, false, false⟩ =
      [Action.generateFiles "in.tsv" 2026 "September"]
    ∧ mainActions (fun _ => true) ⟨some "in.tsv", some 1899, none, true, false⟩ =
      [Action.importDatabase "in.tsv"] := by decide

/-- C9, amended: in static-generation mode (no `--to-database`, no
`--start-server`) with an existing input path, an effective year (after
the truthiness fallback of 0 to 2026) outside [1900, 3000] prints an
error and exits nonzero without generating files; otherwise an effective
month (after the fallback of the empty string to September) outside the
twelve English month names does the same; with effective year in range
and a valid effective month the tool generates the files. -/
theorem year_month_validation_amended (fe : String → Bool) (a : Args)
    (p : String) (hfe : fe p = true) (hip : a.input_path = some p)
    (hss : a.start_server = false) (htd : a.to_database = false) :
    ((effYear a.yearArg < 1900 ∨ effYear a.yearArg > 3000) →
        mainActions fe a = [Action.printYearError, Action.exitNonzero])
    ∧ (1900 ≤ effYear a.yearArg → effYear a.yearArg ≤ 3000 →
        effMonth a.monthArg ∉ validMonths →
        mainActions fe a = [Action.printMonthError, Action.exitNonzero])
    ∧ (1900 ≤ effYear a.yearArg → effYear a.yearArg ≤ 3000 →
        effMonth a.monthArg ∈ validMonths →
        mainActions fe a =
          [Action.generateFiles p (effYear a.yearArg) (effMonth a.monthArg)]) := by
  unfold mainActions
  rw [hss, hip]
  simp only [htd, hfe, Bool.not_true, Bool.false_eq_true, if_false]
  refine ⟨?_, ?_, ?_⟩
  · intro h
    rw [if_pos h]
  · intro h1 h2 h3
    rw [if_neg (by omega), if_pos h3]
  · intro h1 h2 h3
    rw [if_neg (by omega), if_neg (not_not_intro h3)]

theorem year_month_validation_amended_witness :
    mainActions (fun _ => true) ⟨some "in.tsv", some 1899, none, false, false⟩ =
      [Action.printYearError, Action.exitNonzero]
    ∧ mainActions (fun _ => true)
        ⟨some "in.tsv", some 2026, some "Frobruary", false, false⟩ =
      [Action.printMonthError, Action.exitNonzero]
    ∧ mainActions (fun _ => true)
        ⟨some "in.tsv", some 2026, some "September", false, false⟩ =
      [Action.generateFiles "in.tsv" 2026 "September"] := by
  refine ⟨?_, ?_, ?_⟩
  · exact (year_month_validation_amended (fun _ => true)
      ⟨some "in.tsv", some 1899, none, false, false⟩ "in.tsv"
      rfl rfl rfl rfl).1 (by decide)
  · exact (year_month_validation_amended (fun _ => true)
      ⟨some "in.tsv", some 2026, some "Frobruary", false, false⟩ "in.tsv"
      rfl rfl rfl rfl).2.1 (by decide) (by decide) (by decide)
  · exact (year_month_validation_amended (fun _ => true)
      ⟨some "in.tsv", some 2026, some "September", false, false⟩ "in.tsv"
      rfl rfl rfl rfl).2.2 (by decide) (by decide) (by decide)

/-- C10: the `group` query parameter is upper-cased before filtering, so
any case variant of a real group code returns that group's records; only
the exact literal ALL maps to the unfiltered result, and a variant such
as `group=all` filters on the nonexistent group ALL and returns an empty
list on any imported store. -/
theorem group_param_case_handling (db0 : List DbRow)
    (rows : List (List String)) (v : String) (hv : pyUpper v = "CM1") :
    serveDeadlines (importFromTsv db0 rows) (some v) =
      serveDeadlines (importFromTsv db0 rows) (some "CM1")
    ∧ serveDeadlines (importFromTsv db0 rows) (some "ALL") =
        (getDeadlinesByGroup (importFromTsv db0 rows) none).map formatEntry
    ∧ serveDeadlines (importFromTsv db0 rows) (some "all") = [] := by
  refine ⟨?_, ?_, ?_⟩
  · have hvall : v ≠ "ALL" := by
      intro h
      rw [h] at hv
      exact absurd hv (by decide)
    have hvne : v ≠ "" := by
      intro h
      rw [h] at hv
      exact absurd hv (by decide)
    simp only [serveDeadlines]
    rw [if_neg (fun h => hvall (Option.some.inj h)),
      if_neg (fun h => absurd (Option.some.inj h)
        (by decide : ¬("CM1" = "ALL")))]
    simp only [getDeadlinesByGroup]
    rw [if_neg hvne, if_neg (by decide : ¬("CM1" = "")), hv]
    rw [show pyUpper "CM1" = "CM1" from by decide]
  · simp [serveDeadlines]
  · simp only [serveDeadlines]
    rw [if_neg (fun h => absurd (Option.some.inj h)
      (by decide : ¬("all" = "ALL")))]
    simp only [getDeadlinesByGroup]
    rw [if_neg (by decide : ¬("all" = ""))]
    have hfil : (importFromTsv db0 rows).filter
        (fun r => r.module_group == pyUpper "all" && r.is_active) = [] := by
      rw [List.filter_eq_nil_iff]
      intro r hr
      obtain ⟨row, hrow⟩ := mem_importFromTsv_inv db0 rows r hr
      have hg := (importRow_inv row r hrow).1
      have hne : r.module_group ≠ "ALL" := by
        intro h
        rw [h] at hg
        exact absurd hg (by decide)
      simp [show pyUpper "all" = "ALL" from by decide, hne]
    rw [hfil]
    rfl

theorem group_param_case_handling_witness :
    serveDeadlines (importFromTsv [] sampleTsv) (some "cm1") =
      serveDeadlines (importFromTsv [] sampleTsv) (some "CM1")
    ∧ serveDeadlines (importFromTsv [] sampleTsv) (some "ALL") =
        (getDeadlinesByGroup (importFromTsv [] sampleTsv) none).map formatEntry
    ∧ serveDeadlines (importFromTsv [] sampleTsv) (some "all") = [] :=
  group_param_case_handling [] sampleTsv "cm1" (by decide)

end ActEd
